import Mathlib

/-!
Shallow embedding of the core of the Gündem-Analiz news-briefing app:
the PCM audio decoder, the per-card playback state machine of
`handleAudioAction` (src/App.tsx), the favorites toggle store
(`handleAddFavorite` / `handleRemoveFavorite`, src/App.tsx), and the
summarization response handling (`summarizeNewsWithGoogleSearch`,
src/unnamed/part_000).
-/

/-! ## PCM decoder (§4.1 of the spec)

The repository imports `decode` and `decodeAudioData` from `./utils/audio`
(src/App.tsx line 3), but that module's source is not part of the
repository.  The decoder below is therefore modelled from the spec. -/

/-- Modelled from the spec: a raw PCM byte is an 8-bit value; two
consecutive bytes are read little-endian as a signed 16-bit integer
(§4.1: "reads the byte sequence two bytes at a time as little-endian
signed 16-bit integers"). -/
def toSigned16 (n : Nat) : Int :=
  if n < 32768 then (n : Int) else (n : Int) - 65536

/-- Modelled from the spec: the little-endian signed 16-bit value formed
from a low byte and a high byte. -/
def int16LE (lo hi : Nat) : Int :=
  toSigned16 (lo + 256 * hi)

/-- Modelled from the spec: pair up a byte list two bytes at a time
(low byte first); a trailing odd byte is dropped. -/
def chunkPairs : List Nat → List (Nat × Nat)
  | lo :: hi :: rest => (lo, hi) :: chunkPairs rest
  | _ => []

/-- Fuel-indexed worker for `chunkFrames`: repeatedly split off a block of
`k` bytes while at least `k` bytes remain; the fuel bounds the number of
blocks produced, and `chunkFrames` supplies enough fuel for the whole
input. -/
def chunkFramesGo (k : Nat) : Nat → List Nat → List (List Nat)
  | 0, _ => []
  | fuel + 1, bytes =>
    if 0 < k ∧ k ≤ bytes.length then
      bytes.take k :: chunkFramesGo k fuel (bytes.drop k)
    else []

/-- Modelled from the spec: split a byte sequence into consecutive frames
of `k` bytes each, discarding the trailing incomplete frame (§4.1:
"the trailing incomplete frame is discarded (documented truncation
policy, not an error)"). -/
def chunkFrames (k : Nat) (bytes : List Nat) : List (List Nat) :=
  chunkFramesGo k bytes.length bytes

/-- Modelled from the spec: a normalized audio buffer is an ordered
sequence of frames of rational samples in [-1, 1], with the sample rate
and channel count attached as metadata (§3, NormalizedAudioBuffer). -/
structure NormalizedAudioBuffer where
  sampleRate : Nat
  channelCount : Nat
  frames : List (List ℚ)
  deriving DecidableEq

/-- Modelled from the spec: decode one frame of `2 * channelCount` bytes
into one sample per channel, scaling each 16-bit value by dividing by
32768.0 (§3, §4.1). -/
def frameSamples (fr : List Nat) : List ℚ :=
  (chunkPairs fr).map fun p => (int16LE p.1 p.2 : ℚ) / 32768

/-- Modelled from the spec: `pcmToAudioBuffer` (§4.1) — reads the byte
sequence two bytes at a time as little-endian signed 16-bit integers, one
sample per channel in round-robin order across `channelCount`, scales each
by dividing by 32768.0, and discards the trailing incomplete frame. -/
def pcmToAudioBuffer (raw : List Nat) (sampleRate channelCount : Nat) :
    NormalizedAudioBuffer :=
  { sampleRate := sampleRate
    channelCount := channelCount
    frames := (chunkFrames (2 * channelCount) raw).map frameSamples }

/-! ## Favorites store (src/App.tsx lines 297-311) -/

/-- A favorite excerpt, as in src/types.ts. -/
structure FavoriteItem where
  id : String
  text : String
  source : String
  timestamp : Int
  deriving DecidableEq

/-- `handleAddFavorite` (src/App.tsx lines 297-307): if some stored item
already has the given text, remove every item with that text; otherwise
prepend a fresh item (toggle semantics).  The fresh item's id is generated
from the clock in the source; here it is passed in. -/
def handleAddFavorite (id text source : String) (timestamp : Int)
    (prev : List FavoriteItem) : List FavoriteItem :=
  if prev.any (fun item => item.text == text) then
    prev.filter (fun item => item.text != text)
  else
    { id := id, text := text, source := source, timestamp := timestamp } :: prev

/-- `handleRemoveFavorite` (src/App.tsx lines 309-311): drop the item with
the given id. -/
def handleRemoveFavorite (idToRemove : String)
    (prev : List FavoriteItem) : List FavoriteItem :=
  prev.filter (fun item => item.id != idToRemove)

/-- One user operation on the favorites store. -/
inductive FavOp where
  | add (id text source : String) (timestamp : Int)
  | remove (id : String)
  deriving DecidableEq

/-- Apply one favorites operation. -/
def applyFavOp (prev : List FavoriteItem) : FavOp → List FavoriteItem
  | .add i t s ts => handleAddFavorite i t s ts prev
  | .remove i => handleRemoveFavorite i prev

/-- Run a sequence of favorites operations from the initial empty store
(src/App.tsx line 196: `useState<FavoriteItem[]>([])`). -/
def runFavOps (ops : List FavOp) : List FavoriteItem :=
  ops.foldl applyFavOp []

/-- The store holds no two items with identical text. -/
def NoDupTexts (l : List FavoriteItem) : Prop :=
  (l.map FavoriteItem.text).Nodup

/-! ## Playback session state machine (src/App.tsx lines 70-133)

One `ResultCard` holds the session state: `isPlaying`, `isGeneratingAudio`,
`audioError` (React state, lines 70-72) and `sourceNodeRef` (line 74).
Output devices (buffer source nodes) are identified by allocation order;
`liveDevices` tracks those allocated and not yet released, so that a leak
would be observable in the model. -/

/-- The per-card playback session state. -/
structure PlaybackSession where
  isPlaying : Bool
  isGeneratingAudio : Bool
  audioError : Option String
  sourceNode : Option Nat
  liveDevices : List Nat
  nextId : Nat
  deriving DecidableEq

/-- Initial session state (src/App.tsx lines 70-74: `useState(false)`,
`useState(false)`, `useState(null)`, `useRef(null)`). -/
def initSession : PlaybackSession :=
  { isPlaying := false
    isGeneratingAudio := false
    audioError := none
    sourceNode := none
    liveDevices := []
    nextId := 0 }

/-- The `source.onended` handler (src/App.tsx lines 118-121): clear
`isPlaying`, null out `sourceNodeRef`; dropping the last reference
releases the device. -/
def fireOnEnded (s : PlaybackSession) : PlaybackSession :=
  { s with
    isPlaying := false
    sourceNode := none
    liveDevices :=
      match s.sourceNode with
      | some d => s.liveDevices.erase d
      | none => s.liveDevices }

/-- The stop path (src/App.tsx line 85): `sourceNodeRef.current?.stop()`.
The optional chain is a no-op when no node is referenced; otherwise the
device halts and its `onended` handler (lines 118-121) runs. -/
def sourceStop (s : PlaybackSession) : PlaybackSession :=
  match s.sourceNode with
  | none => s
  | some _ => fireOnEnded s

/-- `handleAudioAction` (src/App.tsx lines 83-92), synchronous prefix up
to the `await` of `generateSpeech`: the invoking button is disabled while
`isGeneratingAudio` (line 160), so the call is a no-op then; while
`isPlaying` it stops the source and returns (lines 84-87); with an empty
summary it returns (line 89); otherwise it sets `isGeneratingAudio` and
clears `audioError`, issuing the TTS request (lines 90-94). -/
def handleAudioAction (summaryNonEmpty : Bool) (s : PlaybackSession) :
    PlaybackSession :=
  if s.isGeneratingAudio then s
  else if s.isPlaying then sourceStop s
  else if summaryNonEmpty = false then s
  else { s with isGeneratingAudio := true, audioError := none }

/-- Continuation of `handleAudioAction` when the awaited
`generateSpeech`/decode chain settles; only meaningful while a request is
in flight (`isGeneratingAudio`).  On success (src/App.tsx lines 105-124):
decode, allocate a fresh buffer source, store it in `sourceNodeRef`,
start it and set `isPlaying`; the `finally` (line 131) clears
`isGeneratingAudio`.  On failure (lines 126-132): the `catch` sets
`audioError` and clears `isPlaying`, the `finally` clears
`isGeneratingAudio`; every throwing step (lines 94-111) precedes the
device allocation at line 113, so no device is allocated. -/
def speechSettled (ok : Bool) (s : PlaybackSession) : PlaybackSession :=
  if s.isGeneratingAudio = false then s
  else if ok then
    { s with
      isGeneratingAudio := false
      isPlaying := true
      sourceNode := some s.nextId
      liveDevices := s.nextId :: s.liveDevices
      nextId := s.nextId + 1 }
  else
    { s with
      isGeneratingAudio := false
      isPlaying := false
      audioError := some "Sesli brifing oluşturulamadı." }

/-- External events a session can experience: the user pressing the audio
toggle button, the in-flight TTS/decode settling, and the device reporting
natural end of playback. -/
inductive AudioEvent where
  | press (summaryNonEmpty : Bool)
  | settle (ok : Bool)
  | ended
  deriving DecidableEq

/-- One step of the session under an event.  A natural `ended` event fires
only while playing (src/App.tsx lines 118-121). -/
def sessionStep (s : PlaybackSession) : AudioEvent → PlaybackSession
  | .press ne => handleAudioAction ne s
  | .settle ok => speechSettled ok s
  | .ended => if s.isPlaying then fireOnEnded s else s

/-- Run a sequence of events from the initial session state. -/
def runSession (evs : List AudioEvent) : PlaybackSession :=
  evs.foldl sessionStep initSession

/-- The spec's playback phase (§4.2): Generating while the request is
outstanding, Playing while the device renders, Idle otherwise. -/
inductive Phase where
  | Idle
  | Generating
  | Playing
  deriving DecidableEq

/-- The phase of a session state, read off the component state. -/
def phase (s : PlaybackSession) : Phase :=
  if s.isGeneratingAudio then Phase.Generating
  else if s.isPlaying then Phase.Playing
  else Phase.Idle

/-- Structural invariant of reachable session states: the node reference
is held exactly while playing, the live devices are exactly the referenced
node, and no playback is active while a request is in flight. -/
def SessionInv (s : PlaybackSession) : Prop :=
  (s.isPlaying = true ↔ s.sourceNode ≠ none) ∧
  s.liveDevices = s.sourceNode.toList ∧
  (s.isGeneratingAudio = true → s.isPlaying = false)

/-! ## Summarization response handling (src/unnamed/part_000 lines 9-27) -/

/-- A web citation, as in src/types.ts (`GroundingChunk.web`). -/
structure WebInfo where
  uri : String
  title : String
  deriving DecidableEq

/-- A citation record, as in src/types.ts: the web part is optional. -/
structure GroundingChunk where
  web : Option WebInfo
  deriving DecidableEq

/-- Grounding metadata of one response candidate; the chunk list itself
may be absent. -/
structure GroundingMetadata where
  groundingChunks : Option (List GroundingChunk)
  deriving DecidableEq

/-- One response candidate; its grounding metadata may be absent. -/
structure Candidate where
  groundingMetadata : Option GroundingMetadata
  deriving DecidableEq

/-- The shape of the generate-content response consumed by
`summarizeNewsWithGoogleSearch`: a text and an optional candidate list. -/
structure GenResponse where
  text : String
  candidates : Option (List Candidate)
  deriving DecidableEq

/-- Response processing of `summarizeNewsWithGoogleSearch`
(src/unnamed/part_000 lines 19-22): the summary is `response.text` and the
citations are `response.candidates?.[0]?.groundingMetadata?.groundingChunks
|| []` — each step of the optional chain may be absent, in which case the
empty list is returned. -/
def summarizeNewsWithGoogleSearch (response : GenResponse) :
    String × List GroundingChunk :=
  let groundingChunks :=
    (((response.candidates.bind List.head?).bind
        Candidate.groundingMetadata).bind
        GroundingMetadata.groundingChunks).getD []
  (response.text, groundingChunks)

/-- The optional chain to the citation list comes up absent: no candidate
list, no first candidate, no grounding metadata, or no chunk list. -/
def citationsAbsent (response : GenResponse) : Prop :=
  ((response.candidates.bind List.head?).bind
      Candidate.groundingMetadata).bind
      GroundingMetadata.groundingChunks = none

/-! ## Lemmas about the PCM decoder -/

/-- With enough fuel, the number of frames produced is the byte count
divided by the frame size, rounding down. -/
theorem chunkFramesGo_length (k : Nat) (hk : 0 < k) :
    ∀ (fuel : Nat) (bytes : List Nat), bytes.length ≤ fuel →
      (chunkFramesGo k fuel bytes).length = bytes.length / k := by
  intro fuel
  induction fuel with
  | zero =>
    intro bytes hb
    have h0 : bytes.length = 0 := Nat.le_zero.mp hb
    simp [chunkFramesGo, h0]
  | succ n ih =>
    intro bytes hb
    by_cases h : 0 < k ∧ k ≤ bytes.length
    · have hdrop : (bytes.drop k).length ≤ n := by
        simp only [List.length_drop]
        omega
      simp only [chunkFramesGo, if_pos h, List.length_cons, ih _ hdrop,
        List.length_drop]
      rw [Nat.div_eq bytes.length k, if_pos h]
    · have hlt : bytes.length < k := by omega
      simp only [chunkFramesGo, if_neg h, List.length_nil]
      rw [Nat.div_eq_of_lt hlt]

/-- Every byte of a produced frame is a byte of the input. -/
theorem chunkFramesGo_mem (k : Nat) :
    ∀ (fuel : Nat) (bytes : List Nat) (fr : List Nat),
      fr ∈ chunkFramesGo k fuel bytes → ∀ x ∈ fr, x ∈ bytes := by
  intro fuel
  induction fuel with
  | zero =>
    intro bytes fr hfr
    simp [chunkFramesGo] at hfr
  | succ n ih =>
    intro bytes fr hfr x hx
    by_cases h : 0 < k ∧ k ≤ bytes.length
    · rw [chunkFramesGo, if_pos h] at hfr
      rcases List.mem_cons.mp hfr with rfl | hfr
      · exact List.take_subset k bytes hx
      · exact List.drop_subset k bytes (ih _ _ hfr x hx)
    · rw [chunkFramesGo, if_neg h] at hfr
      cases hfr

/-- Both components of a produced byte pair are bytes of the input. -/
theorem chunkPairs_mem :
    ∀ (l : List Nat) (p : Nat × Nat), p ∈ chunkPairs l → p.1 ∈ l ∧ p.2 ∈ l
  | lo :: hi :: rest, p, h => by
    rw [chunkPairs] at h
    rcases List.mem_cons.mp h with rfl | h
    · exact ⟨List.mem_cons_self _ _, List.mem_cons_of_mem _ (List.mem_cons_self _ _)⟩
    · have ih := chunkPairs_mem rest p h
      exact ⟨List.mem_cons_of_mem _ (List.mem_cons_of_mem _ ih.1),
        List.mem_cons_of_mem _ (List.mem_cons_of_mem _ ih.2)⟩
  | [], _, h => by simp [chunkPairs] at h
  | [_], _, h => by simp [chunkPairs] at h

/-- A 16-bit value read from two bytes lies in the signed 16-bit range. -/
theorem toSigned16_bounds (n : Nat) (h : n ≤ 65535) :
    -32768 ≤ toSigned16 n ∧ toSigned16 n ≤ 32767 := by
  unfold toSigned16
  split <;> omega

/-- Scaling a sample read from two genuine bytes by 32768 lands in
[-1, 1]. -/
theorem sample_bound (lo hi : Nat) (hlo : lo < 256) (hhi : hi < 256) :
    -1 ≤ (int16LE lo hi : ℚ) / 32768 ∧ (int16LE lo hi : ℚ) / 32768 ≤ 1 := by
  have hb := toSigned16_bounds (lo + 256 * hi) (by omega)
  rw [int16LE]
  constructor
  · rw [le_div_iff₀ (by norm_num : (0 : ℚ) < 32768)]
    have : (-32768 : ℚ) ≤ (toSigned16 (lo + 256 * hi) : ℚ) := by
      exact_mod_cast hb.1
    linarith
  · rw [div_le_one (by norm_num : (0 : ℚ) < 32768)]
    have : (toSigned16 (lo + 256 * hi) : ℚ) ≤ 32767 := by
      exact_mod_cast hb.2
    linarith

/-- C1: for every raw PCM byte sequence of length N and channel count c,
`pcmToAudioBuffer` produces exactly `floor(N / (2*c))` frames — the
trailing incomplete frame is discarded (the function is total, so nothing
is raised), and appending one extra byte to a frame-aligned payload leaves
the frame count unchanged. -/
theorem pcmToAudioBuffer_frameCount (raw : List Nat) (sr c : Nat)
    (hc : 0 < c) :
    (pcmToAudioBuffer raw sr c).frames.length = raw.length / (2 * c) ∧
    ∀ b : Nat, 2 * c ∣ raw.length →
      (pcmToAudioBuffer (raw ++ [b]) sr c).frames.length =
        (pcmToAudioBuffer raw sr c).frames.length := by
  have hk : 0 < 2 * c := by omega
  have hcount : ∀ raw0 : List Nat,
      (pcmToAudioBuffer raw0 sr c).frames.length = raw0.length / (2 * c) := by
    intro raw0
    simp only [pcmToAudioBuffer, chunkFrames, List.length_map]
    exact chunkFramesGo_length (2 * c) hk raw0.length raw0 le_rfl
  refine ⟨hcount raw, ?_⟩
  intro b hdvd
  obtain ⟨q, hq⟩ := hdvd
  rw [hcount (raw ++ [b]), hcount raw, List.length_append, List.length_cons,
    List.length_nil, hq]
  rw [Nat.mul_div_cancel_left q hk, Nat.zero_add, Nat.mul_add_div hk]
  rw [Nat.div_eq_of_lt (by omega), Nat.add_zero]

/-- Witness for C1 at a concrete input: three bytes at one channel give
one frame. -/
theorem pcmToAudioBuffer_frameCount_witness :
    (pcmToAudioBuffer [0, 1, 2] 24000 1).frames.length =
      [0, 1, 2].length / (2 * 1) :=
  (pcmToAudioBuffer_frameCount [0, 1, 2] 24000 1 (by decide)).1

/-- C2: every sample produced by `pcmToAudioBuffer` from genuine bytes
lies in [-1, 1]; the 16-bit input 0x8000 (bytes 00 80 little-endian) maps
to exactly -1 and 0x7FFF (bytes FF 7F) to exactly 32767/32768
(≈ 0.999969). -/
theorem pcmToAudioBuffer_amplitude :
    (∀ (raw : List Nat) (sr c : Nat), (∀ b ∈ raw, b < 256) →
      ∀ fr ∈ (pcmToAudioBuffer raw sr c).frames, ∀ q ∈ fr,
        -1 ≤ q ∧ q ≤ 1) ∧
    (pcmToAudioBuffer [0x00, 0x80] 24000 1).frames = [[-1]] ∧
    (pcmToAudioBuffer [0xFF, 0x7F] 24000 1).frames = [[32767 / 32768]] := by
  refine ⟨?_,
    by norm_num [pcmToAudioBuffer, chunkFrames, chunkFramesGo, frameSamples,
      chunkPairs, int16LE, toSigned16],
    by norm_num [pcmToAudioBuffer, chunkFrames, chunkFramesGo, frameSamples,
      chunkPairs, int16LE, toSigned16]⟩
  intro raw sr c hb fr hfr q hq
  simp only [pcmToAudioBuffer, chunkFrames] at hfr
  obtain ⟨fr0, hfr0, rfl⟩ := List.mem_map.mp hfr
  obtain ⟨p, hp, rfl⟩ := List.mem_map.mp hq
  have hmem := chunkPairs_mem fr0 p hp
  have h1 : p.1 ∈ raw :=
    chunkFramesGo_mem (2 * c) raw.length raw fr0 hfr0 p.1 hmem.1
  have h2 : p.2 ∈ raw :=
    chunkFramesGo_mem (2 * c) raw.length raw fr0 hfr0 p.2 hmem.2
  exact sample_bound p.1 p.2 (hb p.1 h1) (hb p.2 h2)

/-- Witness for C2 at a concrete input: the sample decoded from bytes
00 80 is -1 and lies in [-1, 1]. -/
theorem pcmToAudioBuffer_amplitude_witness :
    -1 ≤ (-1 : ℚ) ∧ (-1 : ℚ) ≤ 1 :=
  pcmToAudioBuffer_amplitude.1 [0x00, 0x80] 24000 1 (by decide)
    [-1] (by rw [pcmToAudioBuffer_amplitude.2.1]; exact List.mem_singleton_self _)
    (-1) (by decide)

/-! ## Lemmas about the playback session -/

/-- Every session step preserves the structural invariant. -/
theorem sessionInv_step (s : PlaybackSession) (h : SessionInv s)
    (e : AudioEvent) : SessionInv (sessionStep s e) := by
  obtain ⟨h1, h2, h3⟩ := h
  rcases s with ⟨p, g, err, node, live, nid⟩
  cases e with
  | press ne =>
    cases ne <;> cases g <;> cases p <;> cases node <;>
      simp_all [SessionInv, sessionStep, handleAudioAction, sourceStop,
        fireOnEnded]
  | settle ok =>
    cases ok <;> cases g <;> cases p <;> cases node <;>
      simp_all [SessionInv, sessionStep, speechSettled]
  | ended =>
    cases g <;> cases p <;> cases node <;>
      simp_all [SessionInv, sessionStep, fireOnEnded]

/-- Folding session steps from an invariant state stays invariant. -/
theorem sessionInv_foldl (evs : List AudioEvent) :
    ∀ s : PlaybackSession, SessionInv s →
      SessionInv (evs.foldl sessionStep s) := by
  induction evs with
  | nil => intro s h; exact h
  | cons e rest ih => intro s h; exact ih _ (sessionInv_step s h e)

/-- Every reachable session state satisfies the structural invariant. -/
theorem sessionInv_run (evs : List AudioEvent) : SessionInv (runSession evs) :=
  sessionInv_foldl evs initSession (by simp [SessionInv, initSession])

/-- C3: from Playing, `stop()` (the `sourceNodeRef.current?.stop()` path
plus its `onended` handler) halts and releases the output device and lands
in Idle; from Idle it is the identity — no throw, no effect, no device
allocated. -/
theorem stop_from_playing_and_idle (s : PlaybackSession) (h : SessionInv s) :
    (phase s = Phase.Playing →
      phase (sourceStop s) = Phase.Idle ∧
      (sourceStop s).liveDevices = [] ∧
      (sourceStop s).sourceNode = none) ∧
    (phase s = Phase.Idle → sourceStop s = s) := by
  obtain ⟨h1, h2, h3⟩ := h
  rcases s with ⟨p, g, err, node, live, nid⟩
  cases g <;> cases p <;> cases node <;>
    simp_all [phase, sourceStop, fireOnEnded]

/-- Witness for C3 at a concrete Playing state. -/
theorem stop_from_playing_and_idle_witness :
    phase (sourceStop ⟨true, false, none, some 0, [0], 1⟩) = Phase.Idle ∧
    (sourceStop ⟨true, false, none, some 0, [0], 1⟩).liveDevices = [] ∧
    (sourceStop ⟨true, false, none, some 0, [0], 1⟩).sourceNode = none :=
  (stop_from_playing_and_idle ⟨true, false, none, some 0, [0], 1⟩
    (by simp [SessionInv])).1 rfl

/-- C4: under every sequence of user and device events, at most one output
device is live, and whenever the session is not playing the devices have
all been released — so every exit path out of Playing releases the
device. -/
theorem at_most_one_device (evs : List AudioEvent) :
    (runSession evs).liveDevices.length ≤ 1 ∧
    ((runSession evs).isPlaying = false → (runSession evs).liveDevices = []) := by
  obtain ⟨h1, h2, h3⟩ := sessionInv_run evs
  constructor
  · rw [h2]
    cases (runSession evs).sourceNode <;> simp
  · intro hp
    have hnode : (runSession evs).sourceNode = none := by
      by_contra hne
      have := h1.mpr hne
      rw [hp] at this
      cases this
    rw [h2, hnode]
    rfl

/-- C5: a TTS or decode failure while Generating lands the session in
Idle with the user-facing error message set and zero devices allocated;
the settling function is total, so nothing propagates. -/
theorem generating_failure_lands_idle (s : PlaybackSession)
    (h : SessionInv s) (hg : phase s = Phase.Generating) :
    phase (speechSettled false s) = Phase.Idle ∧
    (speechSettled false s).audioError = some "Sesli brifing oluşturulamadı." ∧
    (speechSettled false s).liveDevices = [] ∧
    (speechSettled false s).sourceNode = none := by
  obtain ⟨h1, h2, h3⟩ := h
  rcases s with ⟨p, g, err, node, live, nid⟩
  cases g <;> cases p <;> cases node <;> simp_all [phase, speechSettled]

/-- Witness for C5 at a concrete Generating state. -/
theorem generating_failure_lands_idle_witness :
    phase (speechSettled false ⟨false, true, none, none, [], 0⟩) = Phase.Idle ∧
    (speechSettled false ⟨false, true, none, none, [], 0⟩).audioError =
      some "Sesli brifing oluşturulamadı." ∧
    (speechSettled false ⟨false, true, none, none, [], 0⟩).liveDevices = [] ∧
    (speechSettled false ⟨false, true, none, none, [], 0⟩).sourceNode = none :=
  generating_failure_lands_idle ⟨false, true, none, none, [], 0⟩
    (by simp [SessionInv]) rfl

/-- Counterexample for C6: start from the initial state, press play (the
session enters Generating), request stop while Generating, and let the TTS
response arrive — the code allocates a device and plays; the claim's "no
output device is allocated and the phase ends in Idle" fails. -/
theorem deferred_cancel_cex :
    phase (speechSettled true (sourceStop (handleAudioAction true initSession)))
      = Phase.Playing ∧
    (speechSettled true
      (sourceStop (handleAudioAction true initSession))).liveDevices.length
      = 1 := by
  decide

/-- C6 amended: a `stop()` requested while Generating has no effect at
all (no stop request is recorded), and when the TTS response later
arrives, a device is allocated and playback starts: the phase ends in
Playing, not Idle. -/
theorem deferred_cancel_amended (s : PlaybackSession) (h : SessionInv s)
    (hg : phase s = Phase.Generating) :
    sourceStop s = s ∧
    phase (speechSettled true (sourceStop s)) = Phase.Playing ∧
    (speechSettled true (sourceStop s)).liveDevices.length = 1 := by
  obtain ⟨h1, h2, h3⟩ := h
  rcases s with ⟨p, g, err, node, live, nid⟩
  cases g <;> cases p <;> cases node <;>
    simp_all [phase, sourceStop, speechSettled]

/-- Witness for the amended C6 at a concrete Generating state. -/
theorem deferred_cancel_amended_witness :
    sourceStop ⟨false, true, none, none, [], 0⟩ =
      ⟨false, true, none, none, [], 0⟩ ∧
    phase (speechSettled true (sourceStop ⟨false, true, none, none, [], 0⟩))
      = Phase.Playing ∧
    (speechSettled true
      (sourceStop ⟨false, true, none, none, [], 0⟩)).liveDevices.length = 1 :=
  deferred_cancel_amended ⟨false, true, none, none, [], 0⟩
    (by simp [SessionInv]) rfl

/-- Counterexample for C7: reach Playing by pressing play and letting the
TTS settle, then press start again — the session ends Idle with no new
request issued, not Generating as the claim requires. -/
theorem start_while_playing_cex :
    phase (sessionStep (runSession [AudioEvent.press true, AudioEvent.settle true])
      (AudioEvent.press true)) = Phase.Idle ∧
    phase (sessionStep (runSession [AudioEvent.press true, AudioEvent.settle true])
      (AudioEvent.press true)) ≠ Phase.Generating := by
  decide

/-- C7 amended: invoking the audio action while Playing performs exactly
the `stop()` transition and nothing more: the session ends Idle with all
devices released, and no fresh request is started. -/
theorem start_while_playing_amended (s : PlaybackSession) (h : SessionInv s)
    (hp2 : phase s = Phase.Playing) (ne : Bool) :
    handleAudioAction ne s = sourceStop s ∧
    phase (handleAudioAction ne s) = Phase.Idle ∧
    (handleAudioAction ne s).liveDevices = [] ∧
    (handleAudioAction ne s).isGeneratingAudio = false := by
  obtain ⟨h1, h2, h3⟩ := h
  rcases s with ⟨p, g, err, node, live, nid⟩
  cases g <;> cases p <;> cases node <;>
    simp_all [phase, handleAudioAction, sourceStop, fireOnEnded]

/-- Witness for the amended C7 at a concrete Playing state. -/
theorem start_while_playing_amended_witness :
    handleAudioAction true ⟨true, false, none, some 5, [5], 6⟩ =
      sourceStop ⟨true, false, none, some 5, [5], 6⟩ ∧
    phase (handleAudioAction true ⟨true, false, none, some 5, [5], 6⟩)
      = Phase.Idle ∧
    (handleAudioAction true ⟨true, false, none, some 5, [5], 6⟩).liveDevices
      = [] ∧
    (handleAudioAction true
      ⟨true, false, none, some 5, [5], 6⟩).isGeneratingAudio = false :=
  start_while_playing_amended ⟨true, false, none, some 5, [5], 6⟩
    (by simp [SessionInv]) rfl true

/-- C10: invoking the audio action while Idle with an empty summary
returns immediately and changes nothing — no request is issued, the phase
stays Idle, no device is allocated and no error is set. -/
theorem idle_empty_summary_noop (s : PlaybackSession)
    (h : phase s = Phase.Idle) :
    handleAudioAction false s = s := by
  rcases s with ⟨p, g, err, node, live, nid⟩
  cases g <;> cases p <;> simp_all [phase, handleAudioAction]

/-- Witness for C10 at the initial (Idle) state. -/
theorem idle_empty_summary_noop_witness :
    handleAudioAction false initSession = initSession :=
  idle_empty_summary_noop initSession rfl

/-! ## Lemmas about the favorites store -/

/-- Filtering the store preserves distinctness of texts. -/
theorem noDupTexts_filter (p : FavoriteItem → Bool) (l : List FavoriteItem)
    (h : NoDupTexts l) : NoDupTexts (l.filter p) := by
  rw [NoDupTexts] at h ⊢
  exact h.sublist (List.Sublist.map _ (List.filter_sublist l))

/-- The favorites toggle preserves distinctness of texts. -/
theorem noDupTexts_add (i t s : String) (ts : Int)
    (prev : List FavoriteItem) (h : NoDupTexts prev) :
    NoDupTexts (handleAddFavorite i t s ts prev) := by
  rw [handleAddFavorite]
  split
  · exact noDupTexts_filter _ _ h
  · next hany =>
    rw [NoDupTexts, List.map_cons, List.nodup_cons]
    refine ⟨?_, h⟩
    intro hmem
    obtain ⟨item, hitem, htext⟩ := List.mem_map.mp hmem
    exact hany (List.any_eq_true.mpr ⟨item, hitem, by simp [htext]⟩)

/-- Each favorites operation preserves distinctness of texts. -/
theorem noDupTexts_applyFavOp (prev : List FavoriteItem)
    (h : NoDupTexts prev) (op : FavOp) : NoDupTexts (applyFavOp prev op) := by
  cases op with
  | add i t s ts => exact noDupTexts_add i t s ts prev h
  | remove i =>
    rw [applyFavOp, handleRemoveFavorite]
    exact noDupTexts_filter _ _ h

/-- Folding favorites operations from a text-distinct store stays
text-distinct. -/
theorem noDupTexts_foldl (ops : List FavOp) :
    ∀ store : List FavoriteItem, NoDupTexts store →
      NoDupTexts (ops.foldl applyFavOp store) := by
  induction ops with
  | nil => intro store h; exact h
  | cons op rest ih => intro store h; exact ih _ (noDupTexts_applyFavOp store h op)

/-- C8: adding text T inserts a fresh item when no stored item has text T;
when one does, it removes every item with text T (toggle semantics); and
no sequence of add/remove operations ever leaves two items with identical
text in the store. -/
theorem favorites_toggle :
    (∀ (i t s : String) (ts : Int) (prev : List FavoriteItem),
      (∀ item ∈ prev, item.text ≠ t) →
      handleAddFavorite i t s ts prev =
        { id := i, text := t, source := s, timestamp := ts } :: prev) ∧
    (∀ (i t s : String) (ts : Int) (prev : List FavoriteItem),
      (∃ item ∈ prev, item.text = t) →
      handleAddFavorite i t s ts prev =
        prev.filter (fun item => item.text != t) ∧
      ∀ item ∈ handleAddFavorite i t s ts prev, item.text ≠ t) ∧
    (∀ ops : List FavOp, NoDupTexts (runFavOps ops)) := by
  refine ⟨?_, ?_, ?_⟩
  · intro i t s ts prev habs
    rw [handleAddFavorite, if_neg]
    intro hc
    obtain ⟨x, hx, hbeq⟩ := List.any_eq_true.mp hc
    exact habs x hx (by simpa using hbeq)
  · intro i t s ts prev hex
    obtain ⟨item0, hmem0, htext0⟩ := hex
    have hany : prev.any (fun item => item.text == t) = true :=
      List.any_eq_true.mpr ⟨item0, hmem0, by simp [htext0]⟩
    refine ⟨by rw [handleAddFavorite, if_pos hany], ?_⟩
    intro item hitem
    rw [handleAddFavorite, if_pos hany] at hitem
    simpa using (List.mem_filter.mp hitem).2
  · intro ops
    exact noDupTexts_foldl ops [] (by simp [NoDupTexts])

/-- Witness for C8: adding to the empty store inserts the item. -/
theorem favorites_toggle_witness :
    handleAddFavorite "i1" "t1" "s1" 0 [] =
      [{ id := "i1", text := "t1", source := "s1", timestamp := 0 }] :=
  favorites_toggle.1 "i1" "t1" "s1" 0 [] (by intro item h; cases h)

/-- C9: when the optional chain to the citation records comes up absent at
any step, `summarizeNewsWithGoogleSearch` still returns the (summary,
groundingChunks) pair, with the citation list defaulting to empty — the
processing is a total function, so no error is raised. -/
theorem summarize_absent_citations (r : GenResponse)
    (h : citationsAbsent r) :
    summarizeNewsWithGoogleSearch r = (r.text, []) := by
  unfold summarizeNewsWithGoogleSearch
  rw [citationsAbsent] at h
  rw [h]
  rfl

/-- Witness for C9: a response with no candidate list yields the summary
with an empty citation list. -/
theorem summarize_absent_citations_witness :
    summarizeNewsWithGoogleSearch ⟨"ozet", none⟩ = ("ozet", []) :=
  summarize_absent_citations ⟨"ozet", none⟩ rfl
